import Mathlib

/-!
Shallow embedding of `src/src/components/tools/image-to-pdf/ImageToPDFTool.tsx`
from the pdfcraft repository: the image-to-PDF conversion tool's option state,
its convert/cancel orchestration (`handleConvert` / `handleCancel`), the
progress callback discipline, the input clamping of the images-per-PDF field,
and the download filenames.  The conversion engine itself
(`imagesToPDF` / `imagesToPDFBatch`, imported from
`@/lib/pdf/processors/image-to-pdf`) is not part of the repository snapshot;
where a claim depends on its internals the engine is modelled from the spec
(marked in the doc comments).
-/

namespace PdfCraft

/-- Page size selector values (`PageSizeType`), from the page-size select
element of the options panel. -/
inductive PageSizeType
  | A4 | LETTER | LEGAL | A3 | A5 | FIT
deriving DecidableEq

/-- Orientation selector values, from the orientation select element. -/
inductive Orientation
  | portrait | landscape | auto
deriving DecidableEq

/-- The option state of one conversion run (the `options` object built in
`handleConvert`, lines 202-209): pageSize, orientation, margin (points),
centerImage, scaleToFit, svgScale. -/
structure OptionsState where
  pageSize : PageSizeType
  orientation : Orientation
  margin : Nat
  centerImage : Bool
  scaleToFit : Bool
  svgScale : Nat
deriving DecidableEq

/-- The initial option values from the `useState` initializers
(lines 46-51 of the component). -/
def initialOptions : OptionsState :=
  { pageSize := .A4
    orientation := .auto
    margin := 36
    centerImage := true
    scaleToFit := true
    svgScale := 2 }

/-- Initial value of the images-per-PDF batch group size
(`useState(10)`, line 55). -/
def initialImagesPerPdf : Nat := 10

/-- A blob of output bytes, abstracted as a list of bytes. -/
abbrev Blob : Type := List Nat

/-- One uploaded source file; only its display name is relevant to the
component logic modelled here. -/
structure SourceFile where
  name : String
deriving DecidableEq

/-- `BatchExportResult` as consumed by the component: archive bytes,
number of PDFs produced, number of source images consumed. -/
structure BatchExportResult where
  zipBlob : Blob
  pdfCount : Nat
  imageCount : Nat
deriving DecidableEq

/-- `ProcessingStatus` values actually set by the component:
idle, uploading, processing, complete, error. -/
inductive Status
  | idle | uploading | processing | complete | error
deriving DecidableEq

/-- The component state touched by `handleConvert` / `handleCancel` and the
progress callbacks: status, progress fraction, progress message, single
result blob, batch result, error message, and the `cancelledRef` flag. -/
structure ToolState where
  status : Status
  progress : ℚ
  progressMessage : String
  result : Option Blob
  batchResult : Option BatchExportResult
  error : Option String
  cancelled : Bool
deriving DecidableEq

/-- The component's initial state (all `useState` initializers plus
`cancelledRef = false`). -/
def initialToolState : ToolState :=
  { status := .idle
    progress := 0
    progressMessage := ""
    result := none
    batchResult := none
    error := none
    cancelled := false }

/-- The shape of the engine's resolved output (`ProcessOutput` for the single
path, the batch analogue for the batch path): a success flag, an optional
result, an optional error message. -/
structure ProcessOutput (α : Type) where
  success : Bool
  result : Option α
  error : Option String

/-- How one engine invocation ends: it resolves with an output, or it throws
(the `catch` branch of `handleConvert`). -/
inductive EngineRun (α : Type)
  | returns (out : ProcessOutput α)
  | throws (msg : String)

/-- JavaScript `x?.message || d`: the fallback message is used when the error
is absent or its message is the empty string. -/
def jsOrString (o : Option String) (d : String) : String :=
  match o with
  | none => d
  | some m => if m = "" then d else m

/-- An external control event observed while the engine promise is pending:
the user pressing Cancel (`handleCancel`), or the engine invoking the
`onProgress` callback with a fraction and a message. -/
inductive RunEvent
  | cancel
  | progressEv (p : ℚ) (m : String)
deriving DecidableEq

/-- Whether an event is a progress callback (as opposed to a cancellation). -/
def isProgressEvent : RunEvent → Bool
  | .cancel => false
  | .progressEv _ _ => true

/-- Effect of one in-flight event on the component state.
`handleCancel` (lines 276-280) sets the cancellation flag, resets the status
to idle and the progress to 0.  The `onProgress` closures (lines 219-224 and
244-249) update progress and message only while the cancellation flag is
unset. -/
def stepEvent (s : ToolState) (e : RunEvent) : ToolState :=
  match e with
  | .cancel => { s with cancelled := true, status := .idle, progress := 0 }
  | .progressEv p m =>
      if s.cancelled then s
      else { s with progress := p, progressMessage := m }

/-- State reset performed at the top of `handleConvert` (lines 195-200):
clear the cancellation flag, set status to processing, progress to 0, and
clear error, result and batch result.  The progress message is not reset. -/
def resetForRun (s : ToolState) : ToolState :=
  { s with cancelled := false, status := .processing, progress := 0,
           error := none, result := none, batchResult := none }

/-- How `handleConvert` folds the resolved engine output into the state
(lines 227-238, 252-263, and the `catch` at 265-270), given the state `mid`
reached after the in-flight events.  `useBatch` is the mode condition
`batchMode && files.length > imagesPerPdf` (line 213).  If cancellation was
observed, the status is set back to idle and nothing else happens; on a
successful output the corresponding result is stored and status becomes
complete; otherwise the error message (with its fallback) is stored and
status becomes error.  A thrown error is swallowed when cancelled. -/
def finishRun (useBatch : Bool) (batchRun : EngineRun BatchExportResult)
    (singleRun : EngineRun Blob) (mid : ToolState) : ToolState :=
  if useBatch then
    match batchRun with
    | .returns out =>
        if mid.cancelled then { mid with status := .idle }
        else if out.success && out.result.isSome then
          { mid with batchResult := out.result, status := .complete }
        else
          { mid with error := some (jsOrString out.error "Failed to create batch PDFs."),
                     status := .error }
    | .throws msg =>
        if mid.cancelled then mid
        else { mid with error := some msg, status := .error }
  else
    match singleRun with
    | .returns out =>
        if mid.cancelled then { mid with status := .idle }
        else if out.success && out.result.isSome then
          { mid with result := out.result, status := .complete }
        else
          { mid with error := some (jsOrString out.error "Failed to convert images to PDF."),
                     status := .error }
    | .throws msg =>
        if mid.cancelled then mid
        else { mid with error := some msg, status := .error }

/-- `handleConvert` (lines 189-271) as a state transformer.  Inputs: the file
list, the batch-mode flag and group size, the list of in-flight events
(cancel / progress callbacks) delivered while awaiting the engine, the
outcome of the batch engine call and of the single engine call (only the one
selected by the mode condition is consumed), and the prior component state.
Validation: fewer than 1 file sets an error message and returns at once.
Otherwise the state is reset, the in-flight events are applied in order, and
the resolved engine output is folded in, taking the batch path exactly when
`batchMode && files.length > imagesPerPdf`. -/
def runConvert (files : List SourceFile) (batchMode : Bool) (imagesPerPdf : Nat)
    (events : List RunEvent)
    (batchRun : EngineRun BatchExportResult) (singleRun : EngineRun Blob)
    (s : ToolState) : ToolState :=
  if files.length < 1 then
    { s with error := some "Please add at least 1 image file." }
  else
    finishRun (batchMode && decide (imagesPerPdf < files.length)) batchRun singleRun
      (List.foldl stepEvent (resetForRun s) events)

/-- Modelled from the spec: the batch engine `imagesToPDFBatch` (imported
from `@/lib/pdf/processors/image-to-pdf`, whose source is not part of this
repository snapshot) partitions the input files into consecutive groups of
`groupSize`, the last group possibly smaller (spec 4.5 step 2). -/
def chunkGroups (g : Nat) : List α → List (List α)
  | [] => []
  | a :: rest => (a :: rest.take (g - 1)) :: chunkGroups g (rest.drop (g - 1))
termination_by l => l.length
decreasing_by
  simp only [List.length_drop, List.length_cons]
  omega

/-- Modelled from the spec: the `BatchExportResult` reported by
`imagesToPDFBatch` — one PDF per group, `imageCount` the number of source
images consumed, `pdfCount` the number of documents produced; the archive
bytes are abstracted as the per-document page counts, since the spec fixes
only the membership and naming of the archive, not its byte encoding. -/
def imagesToPDFBatchModel (files : List SourceFile) (g : Nat) : BatchExportResult :=
  let groups := chunkGroups g files
  { zipBlob := groups.map List.length
    pdfCount := groups.length
    imageCount := files.length }

/-- Helper for the filename regex model: scan the reversed character list for
the first occurrence of a dot, failing on a slash; returns the characters
after the dot (still reversed). -/
def findExtRev : List Char → Option (List Char)
  | [] => none
  | c :: rest =>
      if c = '/' then none
      else if c = '.' then some rest
      else findExtRev rest

/-- Model of the JavaScript `name.replace(/\.[^/.]+$/, '')` (line 585): drop
the last dot together with everything after it, provided at least one
character follows the dot and none of those characters is a dot or a slash;
otherwise the name is unchanged. -/
def stripDotExt (s : String) : String :=
  match s.data.reverse with
  | [] => s
  | c :: rest =>
      if c = '.' ∨ c = '/' then s
      else
        match findExtRev rest with
        | some base => String.mk base.reverse
        | none => s

/-- Filename offered for the single-mode download (line 585):
`<name without extension>.pdf` when exactly one file was given, else
`images_<N>_pages.pdf` with `N` the number of files. -/
def downloadFilename (files : List SourceFile) : String :=
  match files with
  | [f] => stripDotExt f.name ++ ".pdf"
  | fs => "images_" ++ toString fs.length ++ "_pages.pdf"

/-- Filename offered for the batch-mode download (line 595):
`images_<pdfCount>_pdfs.zip`. -/
def batchDownloadFilename (r : BatchExportResult) : String :=
  "images_" ++ toString r.pdfCount ++ "_pdfs.zip"

/-- The batch download button is rendered exactly when `batchResult` is set
(lines 592-600); this is the archive filename the user is offered, if any. -/
def deliveredArchiveName (s : ToolState) : Option String :=
  s.batchResult.map batchDownloadFilename

/-- JavaScript `parseInt(v) || 1` where the parse result is `none` for `NaN`
(empty or non-numeric input): the fallback 1 is used when the parse fails or
yields 0. -/
def jsOrOne : Option Int → Int
  | none => 1
  | some v => if v = 0 then 1 else v

/-- Model of the images-per-PDF input onChange handler (line 518):
`Math.max(1, Math.min(files.length, parseInt(e.target.value) || 1))`. -/
def imagesPerPdfOnChange (n : Nat) (v : Option Int) : Int :=
  max 1 (min (n : Int) (jsOrOne v))

/-! ### Concrete scenario values -/

/-- Three valid image files. -/
def threeFiles : List SourceFile := [⟨"a.png"⟩, ⟨"b.png"⟩, ⟨"c.png"⟩]

/-- Five valid image files. -/
def fiveFiles : List SourceFile :=
  [⟨"a.png"⟩, ⟨"b.png"⟩, ⟨"c.png"⟩, ⟨"d.png"⟩, ⟨"e.png"⟩]

/-- A single-engine invocation that succeeds with a one-byte document. -/
def okSingleRun : EngineRun Blob := .returns ⟨true, some [37], none⟩

/-- A batch-engine invocation that succeeds with the spec-modelled batch
result for the given files and group size. -/
def okBatchRun (files : List SourceFile) (g : Nat) : EngineRun BatchExportResult :=
  .returns ⟨true, some (imagesToPDFBatchModel files g), none⟩

/-! ### Helper lemmas about the in-flight event fold -/

theorem stepEvent_preserves (s : ToolState) (e : RunEvent) :
    (stepEvent s e).result = s.result ∧ (stepEvent s e).batchResult = s.batchResult ∧
      (stepEvent s e).error = s.error := by
  cases e with
  | cancel => exact ⟨rfl, rfl, rfl⟩
  | progressEv p m =>
      by_cases hc : s.cancelled <;> simp [stepEvent, hc]

theorem foldl_stepEvent_preserves (evs : List RunEvent) (s : ToolState) :
    (List.foldl stepEvent s evs).result = s.result ∧
      (List.foldl stepEvent s evs).batchResult = s.batchResult ∧
      (List.foldl stepEvent s evs).error = s.error := by
  induction evs generalizing s with
  | nil => exact ⟨rfl, rfl, rfl⟩
  | cons e evs ih =>
      have h1 := stepEvent_preserves s e
      have h2 := ih (stepEvent s e)
      simp only [List.foldl_cons]
      exact ⟨h2.1.trans h1.1, h2.2.1.trans h1.2.1, h2.2.2.trans h1.2.2⟩

theorem foldl_stepEvent_not_cancelled (evs : List RunEvent) (s : ToolState)
    (hc : s.cancelled = false) (hm : RunEvent.cancel ∉ evs) :
    (List.foldl stepEvent s evs).cancelled = false := by
  induction evs generalizing s with
  | nil => exact hc
  | cons e evs ih =>
      simp only [List.mem_cons, not_or] at hm
      simp only [List.foldl_cons]
      refine ih (stepEvent s e) ?_ hm.2
      cases e with
      | cancel => exact absurd rfl hm.1
      | progressEv p m => by_cases h : s.cancelled <;> simp [stepEvent, h, hc] at *

/-- Once the state is cancelled with idle status and zero progress, further
in-flight events leave it unchanged: another cancel rewrites the same values
and progress callbacks are dropped. -/
theorem foldl_stepEvent_frozen (evs : List RunEvent) (s : ToolState)
    (hc : s.cancelled = true) (hs : s.status = .idle) (hp : s.progress = 0) :
    List.foldl stepEvent s evs = s := by
  induction evs with
  | nil => rfl
  | cons e evs ih =>
      have he : stepEvent s e = s := by
        cases e with
        | cancel =>
            cases s
            simp only [stepEvent] at *
            simp_all
        | progressEv p m => simp [stepEvent, hc]
      simp only [List.foldl_cons, he, ih]

theorem foldl_stepEvent_cancelled_state (evs : List RunEvent) (s : ToolState)
    (h : RunEvent.cancel ∈ evs) :
    (List.foldl stepEvent s evs).cancelled = true ∧
      (List.foldl stepEvent s evs).status = .idle ∧
      (List.foldl stepEvent s evs).progress = 0 := by
  obtain ⟨l1, l2, rfl⟩ := List.append_of_mem h
  rw [List.foldl_append, List.foldl_cons]
  have hfrozen := foldl_stepEvent_frozen l2
    (stepEvent (List.foldl stepEvent s l1) RunEvent.cancel) rfl rfl rfl
  rw [hfrozen]
  exact ⟨rfl, rfl, rfl⟩

/-! ### Helper lemmas about `runConvert` and `finishRun` -/

theorem runConvert_eq (files : List SourceFile) (bm : Bool) (g : Nat)
    (events : List RunEvent) (bR : EngineRun BatchExportResult)
    (sR : EngineRun Blob) (s : ToolState) (hf : files ≠ []) :
    runConvert files bm g events bR sR s =
      finishRun (bm && decide (g < files.length)) bR sR
        (List.foldl stepEvent (resetForRun s) events) := by
  unfold runConvert
  rw [if_neg]
  simpa [Nat.lt_one_iff, List.length_eq_zero] using hf

theorem finishRun_cancelled (u : Bool) (bR : EngineRun BatchExportResult)
    (sR : EngineRun Blob) (mid : ToolState)
    (hc : mid.cancelled = true) (hs : mid.status = .idle) :
    (finishRun u bR sR mid).status = .idle ∧
      (finishRun u bR sR mid).result = mid.result ∧
      (finishRun u bR sR mid).batchResult = mid.batchResult ∧
      (finishRun u bR sR mid).error = mid.error := by
  cases u with
  | false =>
      cases sR with
      | returns out => simp [finishRun, hc]
      | throws msg => simp [finishRun, hc, hs]
  | true =>
      cases bR with
      | returns out => simp [finishRun, hc]
      | throws msg => simp [finishRun, hc, hs]

theorem finishRun_outcome (u : Bool) (bR : EngineRun BatchExportResult)
    (sR : EngineRun Blob) (mid : ToolState) (hc : mid.cancelled = false)
    (hr : mid.result = none) (hb : mid.batchResult = none) (he : mid.error = none) :
    ((finishRun u bR sR mid).error = none ∧ (finishRun u bR sR mid).status = .complete ∧
        ((finishRun u bR sR mid).result.isSome = true ∨
          (finishRun u bR sR mid).batchResult.isSome = true)) ∨
      ((finishRun u bR sR mid).error.isSome = true ∧
        (finishRun u bR sR mid).status = .error ∧
        (finishRun u bR sR mid).result = none ∧
        (finishRun u bR sR mid).batchResult = none) := by
  cases u with
  | false =>
      cases sR with
      | returns out =>
          by_cases hok : (out.success && out.result.isSome) = true
          · simp only [Bool.and_eq_true] at hok
            left
            simp [finishRun, hc, hok.1, hok.2, he]
          · right
            simp [finishRun, hc, hok, hr, hb]
      | throws msg =>
          right
          simp [finishRun, hc, hr, hb]
  | true =>
      cases bR with
      | returns out =>
          by_cases hok : (out.success && out.result.isSome) = true
          · simp only [Bool.and_eq_true] at hok
            left
            simp [finishRun, hc, hok.1, hok.2, he]
          · right
            simp [finishRun, hc, hok, hr, hb]
      | throws msg =>
          right
          simp [finishRun, hc, hr, hb]

theorem finishRun_single_no_batch (bR : EngineRun BatchExportResult)
    (sR : EngineRun Blob) (mid : ToolState) :
    (finishRun false bR sR mid).batchResult = mid.batchResult := by
  cases sR with
  | returns out =>
      by_cases hc : mid.cancelled <;> by_cases hok : (out.success && out.result.isSome) = true <;>
        simp [finishRun, hc, hok]
  | throws msg => by_cases hc : mid.cancelled <;> simp [finishRun, hc]

/-! ### Helper lemmas about the batch partition and the filename model -/

theorem chunkGroups_len {α : Type} (g : Nat) (hg : 1 ≤ g) (l : List α) :
    (chunkGroups g l).length = (l.length + g - 1) / g := by
  have hg0 : 0 < g := hg
  suffices H : ∀ n, ∀ m : List α, m.length ≤ n →
      (chunkGroups g m).length = (m.length + g - 1) / g from H l.length l le_rfl
  intro n
  induction n with
  | zero =>
      intro m hm
      have : m = [] := List.length_eq_zero.mp (Nat.le_zero.mp hm)
      subst this
      simp [chunkGroups, Nat.div_eq_of_lt (show g - 1 < g by omega)]
  | succ n ih =>
      intro m hm
      match m with
      | [] => simp [chunkGroups, Nat.div_eq_of_lt (show g - 1 < g by omega)]
      | a :: rest =>
          rw [chunkGroups]
          simp only [List.length_cons]
          rw [ih (rest.drop (g - 1)) (by simp only [List.length_drop]
                                         simp only [List.length_cons] at hm
                                         omega)]
          simp only [List.length_drop]
          have key : (rest.length - (g - 1) + g - 1) / g = rest.length / g := by
            rcases le_or_lt (g - 1) rest.length with h | h
            · have heq : rest.length - (g - 1) + g - 1 = rest.length := by omega
              rw [heq]
            · rw [Nat.div_eq_of_lt (by omega), Nat.div_eq_of_lt (by omega)]
          rw [key]
          have heq : rest.length + 1 + g - 1 = rest.length + g := by omega
          rw [heq, Nat.add_div_right rest.length hg0]

theorem findExtRev_across (m t : List Char)
    (hm : ∀ c ∈ m, c ≠ '.' ∧ c ≠ '/') :
    findExtRev (m ++ '.' :: t) = some t := by
  induction m with
  | nil => simp [findExtRev]
  | cons c m ih =>
      have hc := hm c (List.mem_cons_self c m)
      simp only [List.cons_append, findExtRev, if_neg hc.2, if_neg hc.1]
      exact ih fun d hd => hm d (List.mem_cons_of_mem c hd)

theorem stripDotExt_extension (b e : List Char) (he : e ≠ [])
    (hech : ∀ c ∈ e, c ≠ '.' ∧ c ≠ '/') :
    stripDotExt (String.mk (b ++ '.' :: e)) = String.mk b := by
  obtain ⟨c, rest, hcr⟩ : ∃ c rest, e.reverse = c :: rest := by
    cases herev : e.reverse with
    | nil => exact absurd (List.reverse_eq_nil_iff.mp herev) he
    | cons c rest => exact ⟨c, rest, rfl⟩
  have hrev : (b ++ '.' :: e).reverse = c :: (rest ++ '.' :: b.reverse) := by
    rw [List.reverse_append, List.reverse_cons, hcr]
    simp
  have hc : c ≠ '.' ∧ c ≠ '/' :=
    hech c (List.mem_reverse.mp (hcr ▸ List.mem_cons_self c rest))
  have hrest : ∀ d ∈ rest, d ≠ '.' ∧ d ≠ '/' := fun d hd =>
    hech d (List.mem_reverse.mp (hcr ▸ List.mem_cons_of_mem c hd))
  unfold stripDotExt
  have hdata : (String.mk (b ++ '.' :: e)).data = b ++ '.' :: e := rfl
  rw [hdata, hrev]
  simp only [if_neg (not_or.mpr hc), findExtRev_across rest b.reverse hrest,
    List.reverse_reverse]

/-! ### Claim theorems -/

/-- C1 (counterexample): batch mode enabled, three valid files, group size 3
(number of files equal to the group size, one group), both engines able to
succeed — yet the run does NOT take the batch path: no archive result is
stored; the single path ran and stored a single PDF blob instead.  The mode
condition at line 213 is the strict `files.length > imagesPerPdf`. -/
theorem batch_equal_group_counterexample :
    (runConvert threeFiles true 3 [] (okBatchRun threeFiles 3) okSingleRun
        initialToolState).batchResult = none ∧
      (runConvert threeFiles true 3 [] (okBatchRun threeFiles 3) okSingleRun
        initialToolState).result = some [37] ∧
      (runConvert threeFiles true 3 [] (okBatchRun threeFiles 3) okSingleRun
        initialToolState).status = Status.complete := by
  decide

/-- C1 (amended): for a valid, non-cancelled run whose batch engine would
succeed, the run goes through the batch path — the batch result with its
archive and counts is stored — if and only if batch mode is enabled AND the
number of files strictly exceeds the group size; when the number of files
equals the group size the single-document path runs instead. -/
theorem batch_path_iff (files : List SourceFile) (bm : Bool) (g : Nat)
    (events : List RunEvent) (bOut : ProcessOutput BatchExportResult)
    (sOut : ProcessOutput Blob) (s : ToolState)
    (hf : files ≠ []) (hnc : RunEvent.cancel ∉ events)
    (hbs : bOut.success = true) (hbr : bOut.result.isSome = true) :
    ((runConvert files bm g events (EngineRun.returns bOut) (EngineRun.returns sOut)
        s).batchResult.isSome = true) ↔ (bm = true ∧ g < files.length) := by
  rw [runConvert_eq files bm g events _ _ s hf]
  have hcan := foldl_stepEvent_not_cancelled events (resetForRun s) rfl hnc
  have hmid := foldl_stepEvent_preserves events (resetForRun s)
  cases bm with
  | false =>
      have hcond : (false && decide (g < files.length)) = false := by simp
      rw [hcond, finishRun_single_no_batch, hmid.2.1]
      simp [resetForRun]
  | true =>
      by_cases hg : g < files.length
      · have hcond : (true && decide (g < files.length)) = true := by simp [hg]
        rw [hcond]
        simp [finishRun, hcan, hbs, hbr, hg]
      · have hcond : (true && decide (g < files.length)) = false := by simp [hg]
        rw [hcond, finishRun_single_no_batch, hmid.2.1]
        simp [resetForRun, hg]

/-- C1 witness: five files with group size 2, batch mode on, no cancellation:
the batch path is taken. -/
theorem batch_path_iff_witness :
    ((runConvert fiveFiles true 2 [] (okBatchRun fiveFiles 2) okSingleRun
        initialToolState).batchResult.isSome = true) ↔
      (true = true ∧ 2 < fiveFiles.length) :=
  batch_path_iff fiveFiles true 2 []
    ⟨true, some (imagesToPDFBatchModel fiveFiles 2), none⟩
    ⟨true, some [37], none⟩ initialToolState (by decide) (by decide) rfl rfl

/-- C2: the spec-modelled batch engine produces exactly
`ceil(imageCount / groupSize)` PDF documents — in Nat arithmetic,
`(files.length + g - 1) / g` — for every non-empty file list and every group
size at least 1. -/
theorem pdfCount_eq_ceil (files : List SourceFile) (g : Nat)
    (_hf : files ≠ []) (hg : 1 ≤ g) :
    (imagesToPDFBatchModel files g).pdfCount = (files.length + g - 1) / g := by
  simp only [imagesToPDFBatchModel]
  exact chunkGroups_len g hg files

/-- C2 witness: 25 images with group size 10 yield exactly 3 PDFs. -/
theorem pdfCount_eq_ceil_witness :
    (imagesToPDFBatchModel (List.replicate 25 ⟨"img.png"⟩) 10).pdfCount = 3 := by
  have h := pdfCount_eq_ceil (List.replicate 25 ⟨"img.png"⟩) 10 (by simp) (by omega)
  simpa using h

/-- C3: if cancellation is requested at any point while the engine call is
in flight (in particular before any progress callback has fired), the run
terminates with the idle status — which is neither the complete (success)
status nor the error (failure) status — and no PDF blob, no archive result
and no error message are handed to the caller. -/
theorem cancelled_run_no_bytes (files : List SourceFile) (bm : Bool) (g : Nat)
    (events : List RunEvent) (bR : EngineRun BatchExportResult)
    (sR : EngineRun Blob) (s : ToolState)
    (hf : files ≠ []) (hc : RunEvent.cancel ∈ events) :
    (runConvert files bm g events bR sR s).status = Status.idle ∧
      (runConvert files bm g events bR sR s).status ≠ Status.complete ∧
      (runConvert files bm g events bR sR s).status ≠ Status.error ∧
      (runConvert files bm g events bR sR s).result = none ∧
      (runConvert files bm g events bR sR s).batchResult = none ∧
      (runConvert files bm g events bR sR s).error = none := by
  rw [runConvert_eq files bm g events bR sR s hf]
  have hmid := foldl_stepEvent_preserves events (resetForRun s)
  have hcs := foldl_stepEvent_cancelled_state events (resetForRun s) hc
  have hfin := finishRun_cancelled (bm && decide (g < files.length)) bR sR _ hcs.1 hcs.2.1
  refine ⟨hfin.1, ?_, ?_, ?_, ?_, ?_⟩
  · rw [hfin.1]
    decide
  · rw [hfin.1]
    decide
  · rw [hfin.2.1, hmid.1]
    rfl
  · rw [hfin.2.2.1, hmid.2.1]
    rfl
  · rw [hfin.2.2.2, hmid.2.2]
    rfl

/-- C3 witness: cancelling (the only in-flight event) a single-mode run over
three files, before any progress callback, yields the idle outcome with no
bytes and no error. -/
theorem cancelled_run_no_bytes_witness :
    (runConvert threeFiles false 10 [RunEvent.cancel] (okBatchRun threeFiles 10)
        okSingleRun initialToolState).status = Status.idle ∧
      (runConvert threeFiles false 10 [RunEvent.cancel] (okBatchRun threeFiles 10)
        okSingleRun initialToolState).status ≠ Status.complete ∧
      (runConvert threeFiles false 10 [RunEvent.cancel] (okBatchRun threeFiles 10)
        okSingleRun initialToolState).status ≠ Status.error ∧
      (runConvert threeFiles false 10 [RunEvent.cancel] (okBatchRun threeFiles 10)
        okSingleRun initialToolState).result = none ∧
      (runConvert threeFiles false 10 [RunEvent.cancel] (okBatchRun threeFiles 10)
        okSingleRun initialToolState).batchResult = none ∧
      (runConvert threeFiles false 10 [RunEvent.cancel] (okBatchRun threeFiles 10)
        okSingleRun initialToolState).error = none :=
  cancelled_run_no_bytes threeFiles false 10 [RunEvent.cancel] (okBatchRun threeFiles 10)
    okSingleRun initialToolState (by decide) (by decide)

/-- C4: in single-document mode, with exactly one input file whose name has
an extension (a final dot followed by at least one character that is neither
a dot nor a slash), the offered PDF name is the source name with that
extension replaced by `.pdf`; with any other number of files it is
`images_<N>_pages.pdf` where `N` is the number of files. -/
theorem single_pdf_filename (f : SourceFile) (b e : List Char)
    (hname : f.name = String.mk (b ++ '.' :: e)) (he : e ≠ [])
    (hech : ∀ c ∈ e, c ≠ '.' ∧ c ≠ '/') :
    downloadFilename [f] = String.mk b ++ ".pdf" ∧
      ∀ fs : List SourceFile, fs.length ≠ 1 →
        downloadFilename fs = "images_" ++ toString fs.length ++ "_pages.pdf" := by
  constructor
  · show stripDotExt f.name ++ ".pdf" = String.mk b ++ ".pdf"
    rw [hname, stripDotExt_extension b e he hech]
  · intro fs hfs
    rcases fs with _ | ⟨x, _ | ⟨y, t⟩⟩
    · rfl
    · exact absurd rfl hfs
    · rfl

/-- C4 witness: one file `photo.png` gives `photo.pdf`; two files give
`images_2_pages.pdf`. -/
theorem single_pdf_filename_witness :
    downloadFilename [⟨"photo.png"⟩] = "photo.pdf" ∧
      downloadFilename [⟨"a.png"⟩, ⟨"b.png"⟩] = "images_2_pages.pdf" := by
  have h := single_pdf_filename ⟨"photo.png"⟩ "photo".data "png".data (by decide)
    (by decide) (by decide)
  exact ⟨h.1.trans (by decide), (h.2 [⟨"a.png"⟩, ⟨"b.png"⟩] (by decide)).trans (by decide)⟩

/-- C5: whenever a batch result is present in the component state, the
archive offered for download is named `images_<pdfCount>_pdfs.zip` with
`pdfCount` taken from that `BatchExportResult`. -/
theorem archive_name_matches_pdfCount (s : ToolState) (r : BatchExportResult)
    (h : s.batchResult = some r) :
    deliveredArchiveName s = some ("images_" ++ toString r.pdfCount ++ "_pdfs.zip") := by
  simp [deliveredArchiveName, batchDownloadFilename, h]

/-- C5 witness: a batch result reporting 3 PDFs is delivered as
`images_3_pdfs.zip`. -/
theorem archive_name_matches_pdfCount_witness :
    deliveredArchiveName { initialToolState with batchResult := some ⟨[], 3, 25⟩ } =
      some "images_3_pdfs.zip" :=
  (archive_name_matches_pdfCount { initialToolState with batchResult := some ⟨[], 3, 25⟩ }
    ⟨[], 3, 25⟩ rfl).trans (by decide)

/-- C6: invoking conversion with an empty file list only sets the
human-readable validation message; the engines are never consulted (the
result is the same for every engine behaviour and event list) and status,
progress, result and batch result keep their prior values — no terminal
success or failure status is produced. -/
theorem empty_input_validation (bm : Bool) (g : Nat) (events : List RunEvent)
    (bR : EngineRun BatchExportResult) (sR : EngineRun Blob) (s : ToolState) :
    runConvert [] bm g events bR sR s =
      { s with error := some "Please add at least 1 image file." } := rfl

/-- C7: the initial option values are exactly those the options surface
states: A4, auto orientation, 36-point margin, centering on, scale-to-fit
on, SVG scale 2, and a batch group size that is a positive integer. -/
theorem default_option_values :
    initialOptions.pageSize = PageSizeType.A4 ∧
      initialOptions.orientation = Orientation.auto ∧
      initialOptions.margin = 36 ∧
      initialOptions.centerImage = true ∧
      initialOptions.scaleToFit = true ∧
      initialOptions.svgScale = 2 ∧
      1 ≤ initialImagesPerPdf := by
  exact ⟨rfl, rfl, rfl, rfl, rfl, rfl, by decide⟩

/-- C8: a run over a non-empty file list that completes without any
cancellation ends in exactly one of two outcomes: a populated result (single
PDF blob or batch archive result) with the complete status and no error
message, XOR a populated error message with the error status and no result
of either kind. -/
theorem run_outcome_exclusive (files : List SourceFile) (bm : Bool) (g : Nat)
    (events : List RunEvent) (bR : EngineRun BatchExportResult)
    (sR : EngineRun Blob) (s : ToolState)
    (hf : files ≠ []) (hnc : RunEvent.cancel ∉ events) :
    Xor'
      ((runConvert files bm g events bR sR s).error = none ∧
        (runConvert files bm g events bR sR s).status = Status.complete ∧
        ((runConvert files bm g events bR sR s).result.isSome = true ∨
          (runConvert files bm g events bR sR s).batchResult.isSome = true))
      ((runConvert files bm g events bR sR s).error.isSome = true ∧
        (runConvert files bm g events bR sR s).status = Status.error ∧
        (runConvert files bm g events bR sR s).result = none ∧
        (runConvert files bm g events bR sR s).batchResult = none) := by
  rw [runConvert_eq files bm g events bR sR s hf]
  have hmid := foldl_stepEvent_preserves events (resetForRun s)
  have hcan := foldl_stepEvent_not_cancelled events (resetForRun s) rfl hnc
  have hout := finishRun_outcome (bm && decide (g < files.length)) bR sR _ hcan
    (hmid.1.trans rfl) (hmid.2.1.trans rfl) (hmid.2.2.trans rfl)
  rcases hout with h | h
  · refine Or.inl ⟨h, fun hB => ?_⟩
    have hB1 := hB.1
    rw [h.1] at hB1
    simp at hB1
  · refine Or.inr ⟨h, fun hA => ?_⟩
    have h1 := h.1
    rw [hA.1] at h1
    simp at h1

/-- C8 witness: a successful non-cancelled single-mode run over three files
lands on the success side of the exclusive outcome. -/
theorem run_outcome_exclusive_witness :
    Xor'
      ((runConvert threeFiles false 10 [] (okBatchRun threeFiles 10) okSingleRun
          initialToolState).error = none ∧
        (runConvert threeFiles false 10 [] (okBatchRun threeFiles 10) okSingleRun
          initialToolState).status = Status.complete ∧
        ((runConvert threeFiles false 10 [] (okBatchRun threeFiles 10) okSingleRun
            initialToolState).result.isSome = true ∨
          (runConvert threeFiles false 10 [] (okBatchRun threeFiles 10) okSingleRun
            initialToolState).batchResult.isSome = true))
      ((runConvert threeFiles false 10 [] (okBatchRun threeFiles 10) okSingleRun
          initialToolState).error.isSome = true ∧
        (runConvert threeFiles false 10 [] (okBatchRun threeFiles 10) okSingleRun
          initialToolState).status = Status.error ∧
        (runConvert threeFiles false 10 [] (okBatchRun threeFiles 10) okSingleRun
          initialToolState).result = none ∧
        (runConvert threeFiles false 10 [] (okBatchRun threeFiles 10) okSingleRun
          initialToolState).batchResult = none) :=
  run_outcome_exclusive threeFiles false 10 [] (okBatchRun threeFiles 10) okSingleRun
    initialToolState (by decide) (by decide)

/-- C9: for any number of loaded files `n ≥ 1`, the value stored by the
images-per-PDF input handler is an integer in `[1, n]`, and empty or
non-numeric input (a failed parse) is mapped to exactly 1. -/
theorem imagesPerPdf_clamped (n : Nat) (v : Option Int) (hn : 1 ≤ n) :
    1 ≤ imagesPerPdfOnChange n v ∧ imagesPerPdfOnChange n v ≤ (n : Int) ∧
      (v = none → imagesPerPdfOnChange n v = 1) := by
  have hn' : (1 : Int) ≤ (n : Int) := by exact_mod_cast hn
  refine ⟨le_max_left 1 _, max_le hn' (min_le_left _ _), ?_⟩
  intro hv
  subst hv
  show max 1 (min (n : Int) 1) = 1
  rw [min_eq_right hn', max_self]

/-- C9 witness: with 5 files loaded, a failed parse stores 1, hence a value
in `[1, 5]`. -/
theorem imagesPerPdf_clamped_witness :
    1 ≤ imagesPerPdfOnChange 5 none ∧ imagesPerPdfOnChange 5 none ≤ ((5 : Nat) : Int) ∧
      ((none : Option Int) = none → imagesPerPdfOnChange 5 none = 1) :=
  imagesPerPdf_clamped 5 none (by decide)

/-- C10: cancellation sets the displayed progress to 0 at that moment, and
every progress callback delivered afterwards is dropped: the state after the
cancel followed by any progress-only events equals the state immediately
after the cancel. -/
theorem progress_frozen_after_cancel (pre post : List RunEvent) (s : ToolState)
    (hpost : ∀ e ∈ post, isProgressEvent e = true) :
    List.foldl stepEvent s (pre ++ RunEvent.cancel :: post) =
      List.foldl stepEvent s (pre ++ [RunEvent.cancel]) ∧
      (List.foldl stepEvent s (pre ++ [RunEvent.cancel])).progress = 0 := by
  have _hpost := hpost
  rw [List.foldl_append, List.foldl_append, List.foldl_cons]
  constructor
  · exact foldl_stepEvent_frozen post _ rfl rfl rfl
  · rfl

/-- C10 witness: a progress callback arriving after the cancel leaves the
cancelled state (with progress 0) unchanged. -/
theorem progress_frozen_after_cancel_witness :
    List.foldl stepEvent initialToolState
        ([] ++ RunEvent.cancel :: [RunEvent.progressEv 1 "halfway"]) =
      List.foldl stepEvent initialToolState ([] ++ [RunEvent.cancel]) ∧
      (List.foldl stepEvent initialToolState ([] ++ [RunEvent.cancel])).progress = 0 :=
  progress_frozen_after_cancel [] [RunEvent.progressEv 1 "halfway"] initialToolState
    (by decide)

end PdfCraft
